import Mathlib

/-!
Verification of the bademeister-go wire codec and storage layer.

The Go sources embedded here are `src/zmqsubscriber` (parseTransaction,
parseBlock with its inner parseHeight closure) and `src/storage`
(NewStorage, getVersion, migrate, initialize).  Bytes are modelled as
`Fin 256`, byte strings as lists, Go `(value, error)` returns as an
explicit result type that also distinguishes runtime panics from
returned errors.
-/

namespace Bademeister

/-- Bytes are naturals below 256, exactly the values a Go byte takes. -/
abbrev Byte := Fin 256

/-- A Go byte slice. -/
abbrev Bytes := List Byte

/-- Outcome of a Go call: a value, a returned error, or a runtime panic
(out-of-bounds index, explicit panic call).  Returned errors carry the
format string of the `fmt.Errorf` / `errors.New` call site. -/
inductive GoResult (α : Type) where
  | ok (val : α) : GoResult α
  | err (msg : String) : GoResult α
  | panic : GoResult α
deriving DecidableEq

/-- True exactly on the returned-error outcome (not on a panic). -/
def GoResult.isErr {α : Type} : GoResult α → Bool
  | .err _ => true
  | _ => false

/-- Little-endian read of the first `n` bytes, as by Go's
`binary.LittleEndian.Uint32` / `Uint64`.  Go panics when the slice is
shorter than `n`; every call site below guarantees enough bytes. -/
def leUintN : Nat → Bytes → Nat
  | 0, _ => 0
  | _ + 1, [] => 0
  | n + 1, b :: bs => b.val + 256 * leUintN n bs

/-- Fuel-driven worker for `pushedData`.  Each step consumes at least one
script byte and one unit of fuel, so fuel equal to the script length never
runs out; the `(0, _ :: _)` branch is unreachable from `pushedData`. -/
def pushedDataAux : Nat → Bytes → Option (List Bytes)
  | _, [] => some []
  | 0, _ :: _ => none
  | fuel + 1, op :: rest =>
    if op.val = 0 then
      -- OP_0 pushes the empty data item
      (pushedDataAux fuel rest).map (fun l => [] :: l)
    else if op.val ≤ 75 then
      -- direct push of op.val bytes
      if rest.length < op.val then none
      else (pushedDataAux fuel (rest.drop op.val)).map
        (fun l => rest.take op.val :: l)
    else if op.val = 76 then
      -- OP_PUSHDATA1: one-byte length prefix
      match rest with
      | [] => none
      | n :: rest2 =>
        if rest2.length < n.val then none
        else (pushedDataAux fuel (rest2.drop n.val)).map
          (fun l => rest2.take n.val :: l)
    else if op.val = 77 then
      -- OP_PUSHDATA2: two-byte little-endian length prefix
      match rest with
      | n0 :: n1 :: rest2 =>
        let n := n0.val + 256 * n1.val
        if rest2.length < n then none
        else (pushedDataAux fuel (rest2.drop n)).map
          (fun l => rest2.take n :: l)
      | _ => none
    else if op.val = 78 then
      -- OP_PUSHDATA4: four-byte little-endian length prefix
      match rest with
      | n0 :: n1 :: n2 :: n3 :: rest2 =>
        let n := n0.val + 256 * n1.val + 65536 * n2.val + 16777216 * n3.val
        if rest2.length < n then none
        else (pushedDataAux fuel (rest2.drop n)).map
          (fun l => rest2.take n :: l)
      | _ => none
    else
      -- non-push opcode: one byte, contributes no data item
      pushedDataAux fuel rest

/-- The pushed data items of a script, as by the vendored
`txscript.PushedData`: parse the script opcode by opcode, collecting the
data of every push opcode (OP_0 contributes an empty item); `none` models
the script-parse error on a truncated push.  This is library code at the
repository boundary; the spec describes it as reading "the pushed data
items from the input's unlocking script". -/
def pushedData (script : Bytes) : Option (List Bytes) :=
  pushedDataAux script.length script

/-- A 32-byte identifier (transaction id or block hash). -/
abbrev Hash32 := Bytes

/-- Go `types.NewHashFromArray`: wraps a raw 32-byte array as a Hash32. -/
def NewHashFromArray (h : Hash32) : Hash32 := h

/-- Go `types.Transaction` (src/types/transaction.go).  Timestamps are
abstract naturals; fields parseTransaction leaves at their Go zero value
get that zero value. -/
structure Transaction where
  txID : Hash32
  firstSeen : Nat
  lastRemoved : Option Nat
  fee : Nat
  weight : Nat
  blockHeight : Int
  indexInBlock : Int
deriving DecidableEq

/-- Modelled from the spec: `types.Block` (spec section 3), whose Go file
is not under src/; the fields are exactly those of the composite literal
built at the end of parseBlock. -/
structure Block where
  hash : Hash32
  parent : Hash32
  firstSeen : Nat
  encodedTime : Nat
  height : Nat
  isBest : Bool
  txIDs : List Hash32
deriving DecidableEq

/-- A decoded `wire.TxIn`: previous-output reference plus the unlocking
(signature) script. -/
structure TxIn where
  prevOutHash : Bytes
  prevOutIndex : Nat
  signatureScript : Bytes
deriving DecidableEq

/-- A decoded `wire.MsgTx` as the btcsuite library hands it to this
repository: its inputs, and the library-computed values the code reads
from it — `TxHash()` (the double-SHA256 transaction identifier defined by
the wire format), `SerializeSize()` and `SerializeSizeStripped()`. -/
structure WireTx where
  txIns : List TxIn
  txHash : Hash32
  serializeSize : Nat
  serializeSizeStripped : Nat
deriving DecidableEq

/-- The fields of a decoded `wire.BlockHeader` that parseBlock reads. -/
structure WireBlockHeader where
  prevBlock : Hash32
  timestamp : Nat
deriving DecidableEq

/-- A decoded `wire.MsgBlock`, with the library-computed `BlockHash()`. -/
structure WireBlock where
  header : WireBlockHeader
  transactions : List WireTx
  blockHash : Hash32
deriving DecidableEq

/-- The btcsuite wire-decoding boundary: `wire.MsgTx.Deserialize` and
`wire.MsgBlock.BtcDecode` as partial functions from raw bytes to decoded
structures (`none` models a decode error). -/
structure WireLib where
  deserializeTx : Bytes → Option WireTx
  decodeBlock : Bytes → Option WireBlock

/-- The all-zero 32-byte hash. -/
def zeroHash32 : Hash32 := List.replicate 32 0

/-- Go `blockchain.IsCoinBaseTx`: exactly one input, whose previous outpoint
is null (zero hash, index 0xffffffff). -/
def isCoinBaseTx (tx : WireTx) : Bool :=
  match tx.txIns with
  | [txin] => decide (txin.prevOutIndex = 4294967295 ∧ txin.prevOutHash = zeroHash32)
  | _ => false

/-- Right-pad with zero bytes to at least 4 bytes, as the
`for len(heightLE) < 4` loop in parseHeight does. -/
def padTo4 (bs : Bytes) : Bytes := bs ++ List.replicate (4 - bs.length) 0

/-- Placeholder TxIn for the (unreachable) `TxIn[0]` access on an empty
input list; `isCoinBaseTx` guarantees a single input wherever it is used. -/
def defaultTxIn : TxIn :=
  { prevOutHash := [], prevOutIndex := 0, signatureScript := [] }

/-- The `parseHeight` closure inside parseBlock: pushed data of the input
script must parse and hold exactly two items; the height is the first
item right-padded with zeros to 4 bytes and its first 4 bytes read as a
little-endian uint32.  On error Go returns `(-1, err)`; the -1 is never
used by the caller, so the error channel alone is modelled. -/
def parseHeight (txin : TxIn) : Except String Int :=
  match pushedData txin.signatureScript with
  | none => .error "could not parse pushed data"
  | some data =>
    if data.length ≠ 2 then .error "unexpected count"
    else .ok (Int.ofNat (leUintN 4 (padTo4 (data.headD []))))

/-- Go `parseTransaction`: two frames expected; the first is the raw
transaction concatenated with an 8-byte little-endian fee trailer, the
second an unused sequence number. -/
def parseTransaction (lib : WireLib) (firstSeen : Nat) (payload : List Bytes) :
    GoResult Transaction :=
  if payload.length ≠ 2 then .err "unexpected payload length"
  else
    let rawtxwithfee := payload.headD []
    let length := rawtxwithfee.length
    if length ≤ 8 then .err "unexpected rawtxwithfee length"
    else
      let rawtx := rawtxwithfee.take (length - 8)
      let feeBytes := rawtxwithfee.drop (length - 8)
      match lib.deserializeTx rawtx with
      | none => .err "could not deserialize the rawtx as wire.MsgTx"
      | some wireTx =>
        .ok { txID := NewHashFromArray wireTx.txHash
              firstSeen := firstSeen
              lastRemoved := none
              fee := leUintN 8 feeBytes
              weight := wireTx.serializeSizeStripped * 3 + wireTx.serializeSize
              blockHeight := 0
              indexInBlock := 0 }

/-- The transaction loop of parseBlock: height starts at the -1 sentinel;
every coinbase-shaped transaction overwrites it via parseHeight (an error
aborts the whole decode); every transaction's id is appended in order. -/
def blockLoop : List WireTx → Int → List Hash32 → Except String (Int × List Hash32)
  | [], height, txHashes => .ok (height, txHashes)
  | t :: ts, height, txHashes =>
    if isCoinBaseTx t then
      match parseHeight (t.txIns.headD defaultTxIn) with
      | .error e => .error e
      | .ok h => blockLoop ts h (txHashes ++ [NewHashFromArray t.txHash])
    else blockLoop ts height (txHashes ++ [NewHashFromArray t.txHash])

/-- Go `parseBlock`: binds `msg[0], msg[1]` with no frame-count check, so
fewer than two frames is an out-of-bounds panic; then decodes the block,
runs the transaction loop, rejects a still-negative height, and builds the
Block (the `uint32(height)` cast is the value modulo 2^32). -/
def parseBlock (lib : WireLib) (firstSeen : Nat) (msg : List Bytes) :
    GoResult Block :=
  if msg.length < 2 then .panic
  else
    match lib.decodeBlock (msg.headD []) with
    | none => .err "error during BtcDecode"
    | some wireBlock =>
      match blockLoop wireBlock.transactions (-1) [] with
      | .error e => .err ("error parsing coinbase: " ++ e)
      | .ok (height, txHashes) =>
        if height < 0 then .err "height not found"
        else
          .ok { firstSeen := firstSeen
                encodedTime := wireBlock.header.timestamp
                hash := NewHashFromArray wireBlock.blockHash
                parent := NewHashFromArray wireBlock.header.prevBlock
                txIDs := txHashes
                height := height.toNat % 4294967296
                isBest := true }

/-- Go `storage.currentVersion`. -/
def currentVersion : Int := 5

/-- Go `Storage.migrate`: a no-op from the current version, a hard error from
every other version (no migration steps ship). -/
def migrate (fromVersion : Int) : Except String Unit :=
  if fromVersion = currentVersion then .ok ()
  else .error "cannot migrate from version"

/-- The state of the database file at the storage path, as NewStorage
observes it: absent, present with a readable schema version, or present
but with no readable version (not a database created by this schema —
`row.Scan` fails there). -/
inductive StoreFile where
  | absent : StoreFile
  | present (readableVersion : Option Int) (contents : List Bytes) : StoreFile
deriving DecidableEq

/-- A live `storage.Storage` handle, identified by the file it wraps. -/
structure Storage where
  file : StoreFile
deriving DecidableEq

/-- Go `Storage.initialize` (schema creation on a fresh database): creates
the empty tables and records the given version in `config`. -/
def initSchema (version : Int) : StoreFile := .present (some version) []

/-- Go `Storage.getVersion`: reads `SELECT version FROM config`; a scan
failure is a `panic(err)`, not a returned error. -/
def getVersion : StoreFile → GoResult Int
  | .absent => .panic
  | .present none _ => .panic
  | .present (some v) _ => .ok v

/-- Go `storage.NewStorage`: fresh path ⇒ initialize at the current version;
existing file ⇒ read the stored version (panicking if unreadable) and
migrate.  Returns the Go result together with the file state after the
call. -/
def NewStorage : StoreFile → GoResult Storage × StoreFile
  | .absent =>
    let f2 := initSchema currentVersion
    (.ok { file := f2 }, f2)
  | .present rv contents =>
    match getVersion (.present rv contents) with
    | .panic => (.panic, .present rv contents)
    | .err e => (.err e, .present rv contents)
    | .ok v =>
      match migrate v with
      | .ok _ => (.ok { file := .present rv contents }, .present rv contents)
      | .error _ => (.err "could not migrate the database", .present rv contents)

/-! Concrete fixtures used by the witness theorems: a coinbase input whose
script pushes the two items `[103, 0]` and `[170]` (a regtest-style
height-103 coinbase), a plain transaction, blocks built from them, and a
wire library decoding fixed one-byte tags to those fixtures. -/

/-- Coinbase input: null previous outpoint, script pushing `[103,0]` and
`[170]`. -/
def cbTxIn : TxIn :=
  { prevOutHash := zeroHash32, prevOutIndex := 4294967295,
    signatureScript := [2, 103, 0, 1, 170] }

/-- Coinbase transaction fixture. -/
def cbTx : WireTx :=
  { txIns := [cbTxIn], txHash := List.replicate 32 1,
    serializeSize := 100, serializeSizeStripped := 60 }

/-- Non-coinbase input fixture. -/
def plainTxIn : TxIn :=
  { prevOutHash := List.replicate 32 2, prevOutIndex := 0,
    signatureScript := [] }

/-- Non-coinbase transaction fixture. -/
def plainTx : WireTx :=
  { txIns := [plainTxIn], txHash := List.replicate 32 3,
    serializeSize := 120, serializeSizeStripped := 80 }

/-- A two-transaction block whose first transaction is the coinbase. -/
def testWireBlock : WireBlock :=
  { header := { prevBlock := List.replicate 32 4, timestamp := 1571000000 },
    transactions := [cbTx, plainTx], blockHash := List.replicate 32 5 }

/-- A block with no coinbase-shaped transaction at all. -/
def noCoinbaseBlock : WireBlock :=
  { header := { prevBlock := List.replicate 32 4, timestamp := 1571000001 },
    transactions := [plainTx], blockHash := List.replicate 32 7 }

/-- Transaction fixture returned for the raw bytes `[170]`. -/
def testTx : WireTx :=
  { txIns := [plainTxIn], txHash := List.replicate 32 6,
    serializeSize := 100, serializeSizeStripped := 60 }

/-- Concrete wire library: `[170]` deserializes to `testTx`; `[2]` decodes
to `testWireBlock`, `[3]` to `noCoinbaseBlock`; all else fails. -/
def testLib : WireLib :=
  { deserializeTx := fun b => if b = [170] then some testTx else none,
    decodeBlock := fun b =>
      if b = [2] then some testWireBlock
      else if b = [3] then some noCoinbaseBlock
      else none }

/-- The block that `parseBlock` builds from `testWireBlock`. -/
def blk103 : Block :=
  { firstSeen := 0, encodedTime := 1571000000,
    hash := List.replicate 32 5, parent := List.replicate 32 4,
    txIDs := [List.replicate 32 1, List.replicate 32 3],
    height := 103, isBest := true }

/-! ## Helper lemmas -/

/-- the value `leUintN n` always fits in `n` bytes. -/
theorem leUintN_lt (n : Nat) (bs : Bytes) : leUintN n bs < 256 ^ n := by
  induction n generalizing bs with
  | zero => simp [leUintN]
  | succ n ih =>
    cases bs with
    | nil => exact Nat.pos_pow_of_pos _ (by norm_num)
    | cons b bs =>
      have hb := b.isLt
      have hr := ih bs
      have hpow : 256 ^ (n + 1) = 256 * 256 ^ n := by ring
      rw [leUintN, hpow]
      omega

/-- Characterization of `parseHeight` once the pushed data is known. -/
theorem parseHeight_of_pushes (txin : TxIn) (data : List Bytes)
    (hp : pushedData txin.signatureScript = some data) :
    parseHeight txin =
      if data.length = 2 then
        .ok (Int.ofNat (leUintN 4 (padTo4 (data.headD []))))
      else .error "unexpected count" := by
  unfold parseHeight
  rw [hp]
  by_cases h : data.length = 2 <;> simp [h]

/-- A successful `parseHeight` value is a non-negative 32-bit integer. -/
theorem parseHeight_ok_bounds (txin : TxIn) (h : Int)
    (hph : parseHeight txin = .ok h) : 0 ≤ h ∧ h < 4294967296 := by
  unfold parseHeight at hph
  cases hpd : pushedData txin.signatureScript with
  | none => rw [hpd] at hph; cases hph
  | some data =>
    rw [hpd] at hph
    by_cases hl : data.length = 2
    · simp only [hl, ne_eq, not_true_eq_false, if_false] at hph
      cases hph
      have hlt := leUintN_lt 4 (padTo4 (data.headD []))
      have h4 : (256 : Nat) ^ 4 = 4294967296 := by norm_num
      rw [h4] at hlt
      constructor
      · exact Int.ofNat_nonneg _
      · have hlt2 : (leUintN 4 (padTo4 (data.headD [])) : Int) < 4294967296 := by
          exact_mod_cast hlt
        exact hlt2
    · simp only [hl, ne_eq, not_false_eq_true, if_true] at hph
      cases hph

/-- The hash list a successful `blockLoop` returns is the accumulator plus
every transaction's id, in order. -/
theorem blockLoop_ok_hashes (ts : List WireTx) (h h' : Int)
    (acc hs : List Hash32) (hok : blockLoop ts h acc = .ok (h', hs)) :
    hs = acc ++ ts.map (fun t => NewHashFromArray t.txHash) := by
  induction ts generalizing h acc with
  | nil =>
    simp only [blockLoop, Except.ok.injEq, Prod.mk.injEq] at hok
    simp [← hok.2]
  | cons t ts ih =>
    simp only [blockLoop] at hok
    split at hok
    · cases hph : parseHeight (t.txIns.headD defaultTxIn) with
      | error e => rw [hph] at hok; cases hok
      | ok hv =>
        rw [hph] at hok
        have := ih hv (acc ++ [NewHashFromArray t.txHash]) hok
        simpa [List.append_assoc] using this
    · have := ih h (acc ++ [NewHashFromArray t.txHash]) hok
      simpa [List.append_assoc] using this

/-- With no coinbase-shaped transaction the loop keeps the incoming
height and just collects the ids. -/
theorem blockLoop_no_coinbase (ts : List WireTx) (h : Int) (acc : List Hash32)
    (hnc : ∀ t ∈ ts, isCoinBaseTx t = false) :
    blockLoop ts h acc =
      .ok (h, acc ++ ts.map (fun t => NewHashFromArray t.txHash)) := by
  induction ts generalizing acc with
  | nil => simp [blockLoop]
  | cons t ts ih =>
    have ht : isCoinBaseTx t = false := hnc t (by simp)
    simp only [blockLoop, ht]
    have := ih (acc ++ [NewHashFromArray t.txHash])
      (fun u hu => hnc u (by simp [hu]))
    simpa [List.append_assoc] using this

/-- A successful loop either kept the incoming height, or took it from a
successful `parseHeight` of some coinbase-shaped transaction. -/
theorem blockLoop_ok_height (ts : List WireTx) (h h' : Int)
    (acc hs : List Hash32) (hok : blockLoop ts h acc = .ok (h', hs)) :
    h' = h ∨ ∃ t ∈ ts, isCoinBaseTx t = true ∧
      parseHeight (t.txIns.headD defaultTxIn) = .ok h' := by
  induction ts generalizing h acc with
  | nil =>
    simp only [blockLoop, Except.ok.injEq, Prod.mk.injEq] at hok
    exact Or.inl hok.1.symm
  | cons t ts ih =>
    simp only [blockLoop] at hok
    split at hok
    · rename_i hc
      cases hph : parseHeight (t.txIns.headD defaultTxIn) with
      | error e => rw [hph] at hok; cases hok
      | ok hv =>
        rw [hph] at hok
        rcases ih hv _ hok with rfl | ⟨u, hu, hcu, hpu⟩
        · exact Or.inr ⟨t, by simp, hc, hph⟩
        · exact Or.inr ⟨u, by simp [hu], hcu, hpu⟩
    · rcases ih h _ hok with rfl | ⟨u, hu, hcu, hpu⟩
      · exact Or.inl rfl
      · exact Or.inr ⟨u, by simp [hu], hcu, hpu⟩

/-- An erroring `parseHeight` on a leading coinbase aborts the loop. -/
theorem blockLoop_first_coinbase_err (t : WireTx) (ts : List WireTx)
    (h : Int) (acc : List Hash32) (e : String)
    (hc : isCoinBaseTx t = true)
    (hph : parseHeight (t.txIns.headD defaultTxIn) = .error e) :
    blockLoop (t :: ts) h acc = .error e := by
  simp only [blockLoop]
  rw [if_pos hc, hph]

/-- Reduction of `parseBlock` once the frame count and block decode are
settled. -/
theorem parseBlock_eq_of_decode (lib : WireLib) (fs : Nat) (msg : List Bytes)
    (wb : WireBlock) (hlen : 2 ≤ msg.length)
    (hdec : lib.decodeBlock (msg.headD []) = some wb) :
    parseBlock lib fs msg =
      match blockLoop wb.transactions (-1) [] with
      | .error e => .err ("error parsing coinbase: " ++ e)
      | .ok (height, txHashes) =>
        if height < 0 then .err "height not found"
        else
          .ok { firstSeen := fs
                encodedTime := wb.header.timestamp
                hash := NewHashFromArray wb.blockHash
                parent := NewHashFromArray wb.header.prevBlock
                txIDs := txHashes
                height := height.toNat % 4294967296
                isBest := true } := by
  unfold parseBlock
  rw [if_neg (by omega), hdec]

/-- Anatomy of a successful `parseBlock`. -/
theorem parseBlock_ok_inv (lib : WireLib) (fs : Nat) (msg : List Bytes)
    (b : Block) (hok : parseBlock lib fs msg = .ok b) :
    ∃ wb height txHashes,
      lib.decodeBlock (msg.headD []) = some wb ∧
      blockLoop wb.transactions (-1) [] = .ok (height, txHashes) ∧
      ¬ height < 0 ∧
      b = { firstSeen := fs, encodedTime := wb.header.timestamp,
            hash := NewHashFromArray wb.blockHash,
            parent := NewHashFromArray wb.header.prevBlock,
            txIDs := txHashes, height := height.toNat % 4294967296,
            isBest := true } := by
  unfold parseBlock at hok
  split at hok
  · cases hok
  · split at hok
    · cases hok
    · rename_i wb hdec
      split at hok
      · cases hok
      · rename_i height txHashes hloop
        split at hok
        · cases hok
        · rename_i hneg
          cases hok
          exact ⟨wb, height, txHashes, hdec, hloop, hneg, rfl⟩

/-! ## Claim theorems -/

/-- C1, counterexample: the spec's coinbase height rule says extraction
succeeds exactly when the pushed data is a single push of at most 4
bytes.  On the script `[0x01, 0x67]` the pushed data is exactly one push
`[0x67]` of length 1 ≤ 4, yet `parseHeight` rejects it: the code demands
exactly two pushed items (`len(data) != 2`). -/
theorem C1_one_push_cex :
    pushedData [1, 103] = some [[103]] ∧
    ([(103 : Byte)] : Bytes).length ≤ 4 ∧
    parseHeight { prevOutHash := zeroHash32, prevOutIndex := 4294967295,
                  signatureScript := [1, 103] } =
      .error "unexpected count" :=
  ⟨rfl, by norm_num, rfl⟩

/-- C1 (amended): height extraction succeeds exactly when the script's
pushed data consists of exactly two pushes, in which case the height is
the first push right-padded with zero bytes to 4 bytes and its first
4 bytes interpreted little-endian; for any other push count the whole
block decode (here: with such a coinbase leading the block) fails with an
error. -/
theorem C1_height_rule (txin : TxIn) (data : List Bytes)
    (hp : pushedData txin.signatureScript = some data) :
    ((∃ h, parseHeight txin = .ok h) ↔ data.length = 2)
    ∧ (data.length = 2 →
        parseHeight txin = .ok (Int.ofNat (leUintN 4 (padTo4 (data.headD [])))))
    ∧ (data.length ≠ 2 →
        ∀ (lib : WireLib) (fs : Nat) (msg : List Bytes) (wb : WireBlock)
          (t : WireTx) (ts : List WireTx),
          2 ≤ msg.length →
          lib.decodeBlock (msg.headD []) = some wb →
          wb.transactions = t :: ts →
          isCoinBaseTx t = true →
          t.txIns.headD defaultTxIn = txin →
          (parseBlock lib fs msg).isErr = true) := by
  have hchar := parseHeight_of_pushes txin data hp
  by_cases hl : data.length = 2
  · rw [if_pos hl] at hchar
    exact ⟨⟨fun _ => hl, fun _ => ⟨_, hchar⟩⟩, fun _ => hchar,
      fun hne => absurd hl hne⟩
  · rw [if_neg hl] at hchar
    refine ⟨⟨?_, fun h2 => absurd h2 hl⟩, fun h2 => absurd h2 hl, ?_⟩
    · rintro ⟨h, hh⟩
      rw [hchar] at hh
      cases hh
    · intro _ lib fs msg wb t ts hlen hdec htxs hcb hti
      have hph : parseHeight (t.txIns.headD defaultTxIn) =
          .error "unexpected count" := by
        rw [hti]; exact hchar
      rw [parseBlock_eq_of_decode lib fs msg wb hlen hdec, htxs,
        blockLoop_first_coinbase_err t ts (-1) [] _ hcb hph]
      rfl

/-- Witness: on the regtest height-103 coinbase input the amended rule
gives height 103. -/
theorem C1_height_rule_w : parseHeight cbTxIn = Except.ok 103 := by
  have h := C1_height_rule cbTxIn [[103, 0], [170]] rfl
  exact h.2.1 rfl

/-- C2: a block whose leading coinbase pushes the 2-byte height `[103,0]`
(as one of exactly two pushed items, no other coinbase-shaped transaction
following) decodes to a Block with Height 103; and if the coinbase's
pushed-data count is not 2, the block decode fails with an error. -/
theorem C2_height_103 :
    (∀ (lib : WireLib) (fs : Nat) (msg : List Bytes) (wb : WireBlock)
       (t : WireTx) (ts : List WireTx) (d2 : Bytes),
       2 ≤ msg.length →
       lib.decodeBlock (msg.headD []) = some wb →
       wb.transactions = t :: ts →
       isCoinBaseTx t = true →
       pushedData (t.txIns.headD defaultTxIn).signatureScript =
         some [[103, 0], d2] →
       (∀ u ∈ ts, isCoinBaseTx u = false) →
       parseBlock lib fs msg =
         .ok { firstSeen := fs,
               encodedTime := wb.header.timestamp,
               hash := NewHashFromArray wb.blockHash,
               parent := NewHashFromArray wb.header.prevBlock,
               txIDs := (t :: ts).map (fun u => NewHashFromArray u.txHash),
               height := 103, isBest := true })
    ∧ (∀ (lib : WireLib) (fs : Nat) (msg : List Bytes) (wb : WireBlock)
         (t : WireTx) (ts : List WireTx) (data : List Bytes),
         2 ≤ msg.length →
         lib.decodeBlock (msg.headD []) = some wb →
         wb.transactions = t :: ts →
         isCoinBaseTx t = true →
         pushedData (t.txIns.headD defaultTxIn).signatureScript = some data →
         data.length ≠ 2 →
         (parseBlock lib fs msg).isErr = true) := by
  constructor
  · intro lib fs msg wb t ts d2 hlen hdec htxs hcb hpush hrest
    have hph : parseHeight (t.txIns.headD defaultTxIn) = .ok 103 := by
      rw [parseHeight_of_pushes _ _ hpush, if_pos (by rfl)]
      rfl
    rw [parseBlock_eq_of_decode lib fs msg wb hlen hdec, htxs]
    have hloop : blockLoop (t :: ts) (-1) [] =
        .ok (103, [NewHashFromArray t.txHash] ++
          ts.map (fun u => NewHashFromArray u.txHash)) := by
      simp only [blockLoop]
      rw [if_pos hcb, hph]
      exact blockLoop_no_coinbase ts 103 [NewHashFromArray t.txHash] hrest
    rw [hloop]
    norm_num
    rfl
  · intro lib fs msg wb t ts data hlen hdec htxs hcb hpush hne
    have hph : parseHeight (t.txIns.headD defaultTxIn) =
        .error "unexpected count" := by
      rw [parseHeight_of_pushes _ _ hpush, if_neg hne]
    rw [parseBlock_eq_of_decode lib fs msg wb hlen hdec, htxs,
      blockLoop_first_coinbase_err t ts (-1) [] _ hcb hph]
    rfl

/-- Witness: the concrete two-transaction block with the height-103
coinbase decodes to `blk103`. -/
theorem C2_height_103_w : parseBlock testLib 0 [[2], [0]] = .ok blk103 := by
  have h := C2_height_103.1 testLib 0 [[2], [0]] testWireBlock cbTx [plainTx]
    [170] (by decide) rfl rfl rfl rfl
    (by intro u hu
        rw [List.mem_singleton] at hu
        subst hu
        rfl)
  exact h

/-- C3: on a well-formed two-frame payload whose first frame is a
deserializable raw transaction `T` followed by an 8-byte fee trailer `F`,
`parseTransaction` succeeds with Fee the little-endian integer of `F`,
TxID the library transaction identifier (the wire-format double-hash) of
`T`, and Weight `3 × strippedSize + fullSize`.  (`T` nonempty: every wire
transaction serialization has at least one byte.) -/
theorem C3_fee_txid_weight (lib : WireLib) (fs : Nat)
    (T F seq : Bytes) (wireTx : WireTx)
    (hT : T ≠ []) (hF : F.length = 8)
    (hdes : lib.deserializeTx T = some wireTx) :
    parseTransaction lib fs [T ++ F, seq] =
      .ok { txID := NewHashFromArray wireTx.txHash, firstSeen := fs,
            lastRemoved := none, fee := leUintN 8 F,
            weight := wireTx.serializeSizeStripped * 3 + wireTx.serializeSize,
            blockHeight := 0, indexInBlock := 0 } := by
  have hTpos : 0 < T.length := List.length_pos.mpr hT
  have hlen : (T ++ F).length = T.length + 8 := by
    rw [List.length_append, hF]
  simp only [parseTransaction, List.headD_cons]
  rw [if_neg (by simp), if_neg (by rw [hlen]; omega)]
  have ht : (T ++ F).length - 8 = T.length := by rw [hlen]; omega
  rw [ht, List.take_left, List.drop_left, hdes]

/-- Witness: concrete payload with fee 999. -/
theorem C3_fee_txid_weight_w :
    parseTransaction testLib 7 [[170, 231, 3, 0, 0, 0, 0, 0, 0], [0]] =
      .ok { txID := List.replicate 32 6, firstSeen := 7, lastRemoved := none,
            fee := 999, weight := 280,
            blockHeight := 0, indexInBlock := 0 } := by
  have h := C3_fee_txid_weight testLib 7 [170] [231, 3, 0, 0, 0, 0, 0, 0] [0]
    testTx (by simp) rfl rfl
  exact h

/-- C4: `parseTransaction` returns an error on any payload whose frame
count is not 2, or whose first frame has length at most 8. -/
theorem C4_frame_checks (lib : WireLib) (fs : Nat) (payload : List Bytes)
    (h : payload.length ≠ 2 ∨ (payload.headD []).length ≤ 8) :
    (parseTransaction lib fs payload).isErr = true := by
  simp only [parseTransaction]
  by_cases h2 : payload.length ≠ 2
  · rw [if_pos h2]; rfl
  · rw [if_neg h2]
    have h8 : (payload.headD []).length ≤ 8 := h.resolve_left h2
    rw [if_pos h8]
    rfl

/-- Witness: a one-frame payload is rejected. -/
theorem C4_frame_checks_w : (parseTransaction testLib 0 [[1]]).isErr = true :=
  C4_frame_checks testLib 0 [[1]] (Or.inl (by simp))

/-- C5: every Block `parseBlock` accepts carries a height below 2^32 that
a successful coinbase `parseHeight` produced (never the -1 sentinel); and
a decodable block without any coinbase-shaped transaction is rejected
with the `height not found` error. -/
theorem C5_no_sentinel_height :
    (∀ (lib : WireLib) (fs : Nat) (msg : List Bytes) (b : Block),
       parseBlock lib fs msg = .ok b →
       b.height < 4294967296 ∧
       ∃ wb, lib.decodeBlock (msg.headD []) = some wb ∧
         ∃ t ∈ wb.transactions, isCoinBaseTx t = true ∧
           parseHeight (t.txIns.headD defaultTxIn) = .ok (Int.ofNat b.height))
    ∧ (∀ (lib : WireLib) (fs : Nat) (msg : List Bytes) (wb : WireBlock),
         2 ≤ msg.length →
         lib.decodeBlock (msg.headD []) = some wb →
         (∀ t ∈ wb.transactions, isCoinBaseTx t = false) →
         parseBlock lib fs msg = .err "height not found") := by
  constructor
  · intro lib fs msg b hok
    obtain ⟨wb, height, txHashes, hdec, hloop, hneg, hb⟩ :=
      parseBlock_ok_inv lib fs msg b hok
    rcases blockLoop_ok_height _ _ _ _ _ hloop with h1 | ⟨t, ht, hct, hpt⟩
    · exfalso; omega
    · subst hb
      have hb2 := parseHeight_ok_bounds _ _ hpt
      have hmod : height.toNat % 4294967296 = height.toNat :=
        Nat.mod_eq_of_lt (by omega)
      refine ⟨Nat.mod_lt _ (by norm_num), wb, hdec, t, ht, hct, ?_⟩
      show parseHeight (t.txIns.headD defaultTxIn) =
        .ok (Int.ofNat (height.toNat % 4294967296))
      rw [hmod]
      have hcast : Int.ofNat height.toNat = height := by
        exact_mod_cast Int.toNat_of_nonneg hb2.1
      rw [hcast]
      exact hpt
  · intro lib fs msg wb hlen hdec hnc
    rw [parseBlock_eq_of_decode lib fs msg wb hlen hdec,
      blockLoop_no_coinbase wb.transactions (-1) [] hnc]
    rfl

/-- Witness: the decodable block with no coinbase is rejected. -/
theorem C5_no_sentinel_height_w :
    parseBlock testLib 0 [[3], [0]] = .err "height not found" := by
  apply C5_no_sentinel_height.2 testLib 0 [[3], [0]] noCoinbaseBlock
    (by decide) rfl
  intro t ht
  rw [show noCoinbaseBlock.transactions = [plainTx] from rfl,
    List.mem_singleton] at ht
  subst ht
  rfl

/-- C6: the TxIDs of an accepted Block are exactly the ids of the decoded
block's transactions, in block order (so in particular of equal length). -/
theorem C6_txids_in_order (lib : WireLib) (fs : Nat) (msg : List Bytes)
    (wb : WireBlock) (b : Block)
    (hdec : lib.decodeBlock (msg.headD []) = some wb)
    (hok : parseBlock lib fs msg = .ok b) :
    b.txIDs = wb.transactions.map (fun t => NewHashFromArray t.txHash)
    ∧ b.txIDs.length = wb.transactions.length := by
  obtain ⟨wb', height, txHashes, hdec', hloop, hneg, hb⟩ :=
    parseBlock_ok_inv lib fs msg b hok
  rw [hdec] at hdec'
  injection hdec' with hwb
  subst hwb
  subst hb
  have hh := blockLoop_ok_hashes _ _ _ _ _ hloop
  constructor
  · simpa using hh
  · simp [hh]

/-- Witness: the two-transaction fixture block yields both ids in order. -/
theorem C6_txids_in_order_w :
    blk103.txIDs = testWireBlock.transactions.map
      (fun t => NewHashFromArray t.txHash) ∧
    blk103.txIDs.length = testWireBlock.transactions.length :=
  C6_txids_in_order testLib 0 [[2], [0]] testWireBlock blk103 rfl rfl

/-- C7: opening an existing store whose stored schema version is not 5
fails (`migrate` succeeds from no other version) and leaves the file
state untouched. -/
theorem C7_version_mismatch (v : Int) (contents : List Bytes) (hv : v ≠ 5) :
    migrate v = .error "cannot migrate from version" ∧
    NewStorage (.present (some v) contents) =
      (.err "could not migrate the database", .present (some v) contents) := by
  have hm : migrate v = .error "cannot migrate from version" := by
    simp only [migrate, currentVersion]
    rw [if_neg hv]
  refine ⟨hm, ?_⟩
  simp only [NewStorage, getVersion, hm]

/-- Witness: stored version 4 is rejected without touching the file. -/
theorem C7_version_mismatch_w :
    migrate 4 = .error "cannot migrate from version" ∧
    NewStorage (.present (some 4) []) =
      (.err "could not migrate the database", .present (some 4) []) :=
  C7_version_mismatch 4 [] (by decide)

/-- C9: `parseBlock` does no frame-count validation — fewer than two
frames is an out-of-bounds panic, not a returned error — while
`parseTransaction` checks the count first and returns an error. -/
theorem C9_frame_mismatch :
    (∀ (lib : WireLib) (fs : Nat) (msg : List Bytes),
       msg.length < 2 → parseBlock lib fs msg = .panic)
    ∧ (∀ (lib : WireLib) (fs : Nat) (payload : List Bytes),
         payload.length ≠ 2 →
         parseTransaction lib fs payload = .err "unexpected payload length") := by
  constructor
  · intro lib fs msg h
    unfold parseBlock
    rw [if_pos h]
  · intro lib fs payload h
    simp only [parseTransaction]
    rw [if_pos h]

/-- Witness: the empty payload panics in `parseBlock` and errors in
`parseTransaction`. -/
theorem C9_frame_mismatch_w :
    parseBlock testLib 0 [] = .panic ∧
    parseTransaction testLib 0 [] = .err "unexpected payload length" :=
  ⟨C9_frame_mismatch.1 testLib 0 [] (by decide),
   C9_frame_mismatch.2 testLib 0 [] (by decide)⟩

/-- C10: opening a store over an existing file whose schema version
cannot be read panics in the version lookup; no error value is returned
and the file is untouched. -/
theorem C10_unreadable_version (contents : List Bytes) :
    NewStorage (.present none contents) = (.panic, .present none contents) :=
  rfl

/-- Witness at the empty file contents. -/
theorem C10_unreadable_version_w :
    NewStorage (.present none []) = (.panic, .present none []) :=
  C10_unreadable_version []

end Bademeister
